import Mathlib

/-!
# Verification of the VoxelExperiment terrain subsystem

A shallow embedding of the chunk storage and indexing code
(src/common/src/chunk.rs), the per-frame terrain meshing trigger
(src/explora/src/terrain.rs), the shared index-buffer growth policy of the
two renderer copies (src/explora/src/render/mod.rs and src/render/src/lib.rs)
and the texture-atlas packer (src/client/src/renderer/texture_packer.rs),
together with proofs of the specification claims about them.

Machine integers are modelled as Nat with explicit truncation (% 2^32) at
the places where the source performs an `as u32` cast.  Code that can
panic is modelled with `Option` (`none` = panic).
-/

namespace Voxel

/-- Modelled from the spec: the voxel material enumeration `BlockId`
(`src/common/src/block.rs` is not among the available sources).  The spec
requires a closed enumeration containing at least an air kind and one or
more solid kinds; the chunk code uses exactly the variants `Air` and
`Dirt`. -/
inductive BlockId where
  | Air
  | Dirt
deriving DecidableEq, Repr

/-- A block position, `vek::Vec3<i32>` in the source. -/
abbrev Pos3 := Int × Int × Int

/-- A chunk-grid coordinate, `vek::Vec2<i32>` in the source. -/
abbrev Pos2 := Int × Int

namespace Chunk

/-- `Chunk::SIZE = Vec3::new(16, 256, 16)` (`src/common/src/chunk.rs:10`). -/
def SIZE : Nat × Nat × Nat := (16, 256, 16)

/-- `Self::SIZE.product()`, the number of voxels in one chunk. -/
def volume : Nat := SIZE.1 * SIZE.2.1 * SIZE.2.2

/-- `Chunk::index_of` (`src/common/src/chunk.rs:39-50`): `None` when any
coordinate is negative (`pos.is_any_negative()`); otherwise the position is
cast to `usize` and the result is `None` when some axis reaches its SIZE
bound, else `Some(x + y*SIZE.x + z*SIZE.x*SIZE.y)`. -/
def index_of (pos : Pos3) : Option Nat :=
  if pos.1 < 0 ∨ pos.2.1 < 0 ∨ pos.2.2 < 0 then
    none
  else
    let x := pos.1.toNat
    let y := pos.2.1.toNat
    let z := pos.2.2.toNat
    if x ≥ SIZE.1 ∨ y ≥ SIZE.2.1 ∨ z ≥ SIZE.2.2 then
      none
    else
      some (x + y * SIZE.1 + z * (SIZE.1 * SIZE.2.1))

/-- `Chunk::out_of_bounds` (`src/common/src/chunk.rs:52-57`). -/
def out_of_bounds (pos : Pos3) : Bool :=
  decide (pos.1 < 0 ∨ pos.2.1 < 0 ∨ pos.2.2 < 0
    ∨ pos.1 ≥ (SIZE.1 : Int) ∨ pos.2.1 ≥ (SIZE.2.1 : Int) ∨ pos.2.2 ≥ (SIZE.2.2 : Int))

/-- `Chunk::within_bounds` (`src/common/src/chunk.rs:59-61`). -/
def within_bounds (pos : Pos3) : Bool :=
  ! out_of_bounds pos

/-- `Chunk::flat` (`src/common/src/chunk.rs:12-16`):
`vec![BlockId::Air; Self::SIZE.product()]`. -/
def flat : List BlockId := List.replicate volume BlockId.Air

/-- `Chunk::generate` (`src/common/src/chunk.rs:18-33`): the coordinate
argument is ignored (the Rust parameter is the wildcard `_`); an all-`Air`
vector is created and the cell at `index_of (x, y, z)` is overwritten with
`Dirt` for every `x < SIZE.x`, `y < SIZE.y`, `z < SIZE.z` in a triple
nested loop (the `None => continue` arm leaves the vector unchanged). -/
def generate (_coord : Pos2) : List BlockId :=
  (List.range SIZE.1).foldl
    (fun bx (x : Nat) =>
      (List.range SIZE.2.1).foldl
        (fun bxy (y : Nat) =>
          (List.range SIZE.2.2).foldl
            (fun bxyz (z : Nat) =>
              match index_of (Int.ofNat x, Int.ofNat y, Int.ofNat z) with
              | some i => bxyz.set i BlockId.Dirt
              | none => bxyz)
            bxy)
        bx)
    (List.replicate volume BlockId.Air)

/-- `Chunk::get` (`src/common/src/chunk.rs:35-37`):
`Self::index_of(pos).map(|idx| self.blocks[idx])`.  The Rust indexing
`self.blocks[idx]` panics when `idx` is out of range; the outer `Option`
models that panic (`none` = panic) while the inner `Option` is the Rust
return value. -/
def get (blocks : List BlockId) (pos : Pos3) : Option (Option BlockId) :=
  match index_of pos with
  | none => some none
  | some idx =>
    match blocks[idx]? with
    | none => none
    | some b => some (some b)

/-- The single loop-body write of `Chunk::generate`
(`src/common/src/chunk.rs:23-28`) as a standalone function: look up
`index_of` of the (non-negative) loop position and overwrite that cell with
`Dirt`, leaving the vector unchanged when there is no index.  `generate` is
proved equal to a fold of this function over `allPositions`. -/
def writeDirt (b : List BlockId) (p : Nat × Nat × Nat) : List BlockId :=
  match index_of (Int.ofNat p.1, Int.ofNat p.2.1, Int.ofNat p.2.2) with
  | some i => b.set i BlockId.Dirt
  | none => b

/-- The positions visited by the triple nested loop of `Chunk::generate`,
flattened in loop order (`x` outermost, `z` innermost). -/
def allPositions : List (Nat × Nat × Nat) :=
  (List.range SIZE.1).flatMap fun x =>
    (List.range SIZE.2.1).flatMap fun y =>
      (List.range SIZE.2.2).map fun z => (x, y, z)

/-- The sequence of positions produced by repeatedly calling
`ChunkIter::next` (`src/common/src/chunk.rs:79-89`) starting from index 0:
while `index < size.product()` it yields
`(index % size.x, (index / size.x) % size.y, index / (size.x * size.y))`
and then increments the index. -/
def iterList : List Pos3 :=
  (List.range volume).map fun i =>
    (Int.ofNat (i % SIZE.1), Int.ofNat ((i / SIZE.1) % SIZE.2.1),
      Int.ofNat (i / (SIZE.1 * SIZE.2.1)))

end Chunk

namespace Terrain

/-- The four planar neighbor offsets probed by `terrain_system_render`
(`src/explora/src/terrain.rs:27-32`): `(0,1)`, `(1,0)`, `(0,-1)`, `(-1,0)`. -/
def neighborOffsets : List Pos2 := [(0, 1), (1, 0), (0, -1), (-1, 0)]

/-- Whether all four planar neighbors of `pos` are present in the terrain
map, modelled by the list of chunk positions it contains; this is the
negation of `neighbors.iter().any(|n| n.is_none())`
(`src/explora/src/terrain.rs:34`). -/
def allNeighborsPresent (terrain : List Pos2) (pos : Pos2) : Bool :=
  neighborOffsets.all fun off => decide ((pos.1 + off.1, pos.2 + off.2) ∈ terrain)

/-- One frame of `terrain_system_render` (`src/explora/src/terrain.rs:21-52`)
restricted to the render-data cache keys: the system iterates the terrain
map; a chunk position whose four planar neighbors are all present and which
has no render-data entry yet (`terrain_render_data.chunks.get(pos).is_none()`)
is meshed and a cache entry for it is inserted.  `terrain` is the list of
chunk positions present in `TerrainMap` (fixed during the frame) and
`cache` the set of positions holding a `TerrainRenderData` entry. -/
def frameStep (terrain cache : List Pos2) : List Pos2 :=
  terrain.foldl
    (fun acc pos =>
      if allNeighborsPresent terrain pos = true ∧ pos ∉ acc then pos :: acc else acc)
    cache

end Terrain

namespace Render

/-- Rust `as u32` truncation. -/
def u32cast (n : Nat) : Nat := n % 4294967296

/-- `u32::MAX`. -/
def u32Max : Nat := 4294967295

/-- Number of indices produced by `compute_terrain_indices(device, vert_length)`
(`src/explora/src/render/mod.rs:576-588` and the identical copy in
`src/render/src/lib.rs:355-367`): the `[0,1,2,2,3,0]` pattern is cycled and
truncated with `.take(vert_length / 4 * 6)`. -/
def computeTerrainIndicesLen (vertLength : Nat) : Nat := vertLength / 4 * 6

/-- The initial shared index buffer is `compute_terrain_indices(&device, 5000)`
(`src/explora/src/render/mod.rs:283`, `src/render/src/lib.rs:131`). -/
def initialIndexBufferLen : Nat := computeTerrainIndicesLen 5000

/-- `Renderer::check_index_buffer` of `src/explora/src/render/mod.rs:397-423`
(the `Uint32` index-format arm taken by terrain vertices), acting on the
length of the shared terrain index buffer.  `ibLen` is the current number of
indices in `terrain_index_buffer`, `len` the vertex count passed by
`create_vertex_buffer`.  `none` models the `panic!`; `some n` is the
index-buffer length after the call.  The guard compares against
`vertex_length as u32`, a truncating cast, exactly as the source does.
Modelled from the spec: `Buffer::len` (`buffer.rs` is not among the
available sources) is the buffer's exact element count, the spec's explicit
capacity field of the growable index buffer. -/
def checkIndexBufferEx (ibLen len : Nat) : Option Nat :=
  let vertexLength := len / 4 * 6
  if ibLen < u32cast vertexLength then
    if len > u32Max then none
    else some (computeTerrainIndicesLen len)
  else some ibLen

/-- `Renderer::check_index_buffer` of `src/render/src/lib.rs:268-295` (the
second renderer copy), `Uint32` arm: it computes `l = len / 6 * 4` and
returns early — leaving the buffer untouched — when
`terrain_index_buffer.len() > l as u32`; otherwise it panics when
`len > u32::MAX` and else rebuilds the buffer from `len`. -/
def checkIndexBufferRS (ibLen len : Nat) : Option Nat :=
  let l := len / 6 * 4
  if ibLen > u32cast l then some ibLen
  else if len > u32Max then none
  else some (computeTerrainIndicesLen len)

end Render

namespace Atlas

/-- `atlas_tile_count = (paths.len() as f32).sqrt().ceil() as usize`
(`src/client/src/renderer/texture_packer.rs:27`): the ceiling of the square
root of the number of input textures.  The `f32` square root is modelled as
the exact real square root (for `n = 0` both give `0`; for `n ≥ 1` the exact
ceiling of the square root is `Nat.sqrt (n-1) + 1`). -/
def tileCount (n : Nat) : Nat :=
  if n = 0 then 0 else Nat.sqrt (n - 1) + 1

/-- `atlas_width = first_image.width * atlas_tile_count`
(`src/client/src/renderer/texture_packer.rs:32`); all inputs share the
first texture's width `w`. -/
def atlasWidth (n w : Nat) : Nat := w * tileCount n

/-- `atlas_height = first_image.height * atlas_tile_count`
(`src/client/src/renderer/texture_packer.rs:33`). -/
def atlasHeight (n h : Nat) : Nat := h * tileCount n

/-- Pixel offset at which tile `i` is blitted
(`src/client/src/renderer/texture_packer.rs:50-51`):
`pixel_x = i % atlas_tile_count * image.width`,
`pixel_y = i / atlas_tile_count * image.height`; the copy loop then writes
tile pixel `(x, y)` to atlas pixel `(pixel_x + x, pixel_y + y)`. -/
def tileOffset (n w h i : Nat) : Nat × Nat :=
  (i % tileCount n * w, i / tileCount n * h)

/-- The grid cell occupied by tile `i`: column `i mod tile_count`, row
`i div tile_count` (the cell whose pixel origin is `tileOffset`). -/
def tileCell (n i : Nat) : Nat × Nat :=
  (i % tileCount n, i / tileCount n)

end Atlas

/-! ## Helper lemmas on chunk indexing -/

namespace Chunk

theorem within_bounds_iff (x y z : Int) :
    within_bounds (x, y, z) = true ↔
      0 ≤ x ∧ x < 16 ∧ 0 ≤ y ∧ y < 256 ∧ 0 ≤ z ∧ z < 16 := by
  unfold within_bounds out_of_bounds
  dsimp only [SIZE]
  simp only [Bool.not_eq_true', decide_eq_false_iff_not]
  omega

theorem index_of_of_bounds (x y z : Int)
    (h : 0 ≤ x ∧ x < 16 ∧ 0 ≤ y ∧ y < 256 ∧ 0 ≤ z ∧ z < 16) :
    index_of (x, y, z) = some (x.toNat + y.toNat * 16 + z.toNat * (16 * 256)) := by
  unfold index_of
  dsimp only [SIZE]
  split_ifs with h1 h2
  · exfalso; omega
  · exfalso; omega
  · rfl

theorem index_of_of_not_bounds (x y z : Int)
    (h : ¬(0 ≤ x ∧ x < 16 ∧ 0 ≤ y ∧ y < 256 ∧ 0 ≤ z ∧ z < 16)) :
    index_of (x, y, z) = none := by
  unfold index_of
  dsimp only [SIZE]
  split_ifs with h1 h2
  · rfl
  · rfl
  · exfalso; omega

theorem index_of_lt_volume (pos : Pos3) (i : Nat) (h : index_of pos = some i) :
    i < volume := by
  obtain ⟨a, b, c⟩ := pos
  by_cases hb : 0 ≤ a ∧ a < 16 ∧ 0 ≤ b ∧ b < 256 ∧ 0 ≤ c ∧ c < 16
  · rw [index_of_of_bounds a b c hb] at h
    simp only [Option.some.injEq] at h
    unfold volume
    dsimp only [SIZE]
    omega
  · rw [index_of_of_not_bounds a b c hb] at h
    exact Option.noConfusion h

end Chunk

/-! ## C3: chunk linear indexing -/

/-- C3: for every position `(x, y, z)` of signed integers, `index_of`
returns `some (x + y*16 + z*16*256)` when `0 ≤ x < 16`, `0 ≤ y < 256`,
`0 ≤ z < 16`, returns `none` for every other position (in particular any
position with a negative coordinate), and is injective over the in-bounds
domain. -/
theorem index_of_correct (x y z : Int) :
    ((0 ≤ x ∧ x < 16 ∧ 0 ≤ y ∧ y < 256 ∧ 0 ≤ z ∧ z < 16) →
      Chunk.index_of (x, y, z) = some (x.toNat + y.toNat * 16 + z.toNat * (16 * 256)))
    ∧ (¬(0 ≤ x ∧ x < 16 ∧ 0 ≤ y ∧ y < 256 ∧ 0 ≤ z ∧ z < 16) →
      Chunk.index_of (x, y, z) = none)
    ∧ ∀ x2 y2 z2 : Int,
        (0 ≤ x ∧ x < 16 ∧ 0 ≤ y ∧ y < 256 ∧ 0 ≤ z ∧ z < 16) →
        (0 ≤ x2 ∧ x2 < 16 ∧ 0 ≤ y2 ∧ y2 < 256 ∧ 0 ≤ z2 ∧ z2 < 16) →
        Chunk.index_of (x, y, z) = Chunk.index_of (x2, y2, z2) →
        (x, y, z) = ((x2, y2, z2) : Pos3) := by
  refine ⟨Chunk.index_of_of_bounds x y z, Chunk.index_of_of_not_bounds x y z, ?_⟩
  intro x2 y2 z2 hb hb2 heq
  rw [Chunk.index_of_of_bounds x y z hb, Chunk.index_of_of_bounds x2 y2 z2 hb2] at heq
  simp only [Option.some.injEq] at heq
  simp only [Prod.mk.injEq]
  omega

/-- Witness for C3 at the in-bounds position `(3, 2, 1)` and the
out-of-bounds position `(-1, 5, 5)`. -/
theorem index_of_correct_witness :
    Chunk.index_of (3, 2, 1) = some 4131 ∧ Chunk.index_of (-1, 5, 5) = none := by
  constructor
  · have h := (index_of_correct 3 2 1).1 (by norm_num)
    simpa using h
  · exact (index_of_correct (-1) 5 5).2.1 (by norm_num)

/-! ## C4: chunk position iterator -/

/-- C4: the chunk position iterator yields exactly `16*256*16 = 65536`
positions; position number `i` is `(i % 16, (i / 16) % 256, i / (16*256))`
(x fastest, z slowest); every yielded position is within bounds, the
sequence has no duplicates, and every in-bounds position is yielded. -/
theorem iter_enumeration :
    Chunk.iterList.length = 16 * 256 * 16
    ∧ (∀ (i : Nat) (h : i < Chunk.iterList.length),
        Chunk.iterList.get ⟨i, h⟩ =
          (Int.ofNat (i % 16), Int.ofNat ((i / 16) % 256), Int.ofNat (i / (16 * 256))))
    ∧ (∀ p ∈ Chunk.iterList, Chunk.within_bounds p = true)
    ∧ Chunk.iterList.Nodup
    ∧ (∀ p : Pos3, Chunk.within_bounds p = true → p ∈ Chunk.iterList) := by
  refine ⟨?_, ?_, ?_, ?_, ?_⟩
  · simp [Chunk.iterList, Chunk.volume, Chunk.SIZE]
  · intro i h
    rw [List.get_eq_getElem]
    simp only [Chunk.iterList, Chunk.SIZE, List.getElem_map, List.getElem_range]
  · intro p hp
    simp only [Chunk.iterList, Chunk.SIZE, List.mem_map, List.mem_range] at hp
    obtain ⟨i, hi, rfl⟩ := hp
    rw [Chunk.within_bounds_iff]
    simp only [Chunk.volume, Chunk.SIZE] at hi
    simp only [Int.ofNat_eq_coe]
    omega
  · unfold Chunk.iterList
    apply List.Nodup.map_on _ (List.nodup_range _)
    intro i hi j hj hf
    simp only [Prod.mk.injEq, Chunk.SIZE, Int.ofNat_eq_coe] at hf
    simp only [List.mem_range, Chunk.volume, Chunk.SIZE] at hi hj
    omega
  · rintro ⟨a, b, c⟩ hp
    rw [Chunk.within_bounds_iff] at hp
    simp only [Chunk.iterList, Chunk.SIZE, List.mem_map, List.mem_range]
    refine ⟨a.toNat + b.toNat * 16 + c.toNat * (16 * 256), ?_, ?_⟩
    · simp only [Chunk.volume, Chunk.SIZE]
      omega
    · simp only [Prod.mk.injEq, Int.ofNat_eq_coe]
      refine ⟨?_, ?_, ?_⟩ <;> omega

/-- Witness for C4: `(1, 1, 0)` is within bounds and is yielded by the
iterator; the iterator yields 65536 positions. -/
theorem iter_enumeration_witness :
    Chunk.iterList.length = 16 * 256 * 16
    ∧ ((1 : Int), (1 : Int), (0 : Int)) ∈ Chunk.iterList :=
  ⟨iter_enumeration.1,
   iter_enumeration.2.2.2.2 ((1 : Int), (1 : Int), (0 : Int)) (by decide)⟩

/-! ## Helper lemmas on `Chunk.generate` -/

namespace Chunk

theorem foldl_flatMap {α β γ : Type} (g : α → List β) (f : γ → β → γ) :
    ∀ (l : List α) (init : γ),
      (l.flatMap g).foldl f init = l.foldl (fun b a => (g a).foldl f b) init := by
  intro l
  induction l with
  | nil => intro init; rfl
  | cons a t ih =>
    intro init
    simp only [List.flatMap_cons, List.foldl_append, List.foldl_cons]
    exact ih _

theorem generate_eq (coord : Pos2) :
    generate coord = allPositions.foldl writeDirt (List.replicate volume BlockId.Air) := by
  unfold generate allPositions
  simp only [foldl_flatMap, List.foldl_map]
  apply List.foldl_ext
  intro bx x _
  apply List.foldl_ext
  intro bxy y _
  apply List.foldl_ext
  intro bxyz z _
  unfold writeDirt
  rfl

theorem writeDirt_length (b : List BlockId) (p : Nat × Nat × Nat) :
    (writeDirt b p).length = b.length := by
  unfold writeDirt
  split
  · simp
  · rfl

theorem foldl_writeDirt_length : ∀ (l : List (Nat × Nat × Nat)) (b : List BlockId),
    (l.foldl writeDirt b).length = b.length := by
  intro l
  induction l with
  | nil => intro b; rfl
  | cons p t ih =>
    intro b
    rw [List.foldl_cons, ih, writeDirt_length]

theorem generate_length (coord : Pos2) : (generate coord).length = volume := by
  rw [generate_eq, foldl_writeDirt_length, List.length_replicate]

theorem foldl_writeDirt_persist : ∀ (l : List (Nat × Nat × Nat)) (b : List BlockId) (k : Nat),
    b[k]? = some BlockId.Dirt → (l.foldl writeDirt b)[k]? = some BlockId.Dirt := by
  intro l
  induction l with
  | nil => intro b k h; exact h
  | cons p t ih =>
    intro b k h
    rw [List.foldl_cons]
    apply ih
    unfold writeDirt
    split
    · rename_i i hi
      rw [List.getElem?_set]
      split_ifs with h1 h2
      · rfl
      · exfalso
        have hk : k < b.length := by
          by_contra hk2
          rw [List.getElem?_eq_none (by omega)] at h
          exact Option.noConfusion h
        omega
      · exact h
    · exact h

theorem foldl_writeDirt_hit : ∀ (l : List (Nat × Nat × Nat)) (b : List BlockId)
    (p : Nat × Nat × Nat) (k : Nat),
    p ∈ l → index_of (Int.ofNat p.1, Int.ofNat p.2.1, Int.ofNat p.2.2) = some k →
    k < b.length → (l.foldl writeDirt b)[k]? = some BlockId.Dirt := by
  intro l
  induction l with
  | nil =>
    intro b p k hp _ _
    exact absurd hp (List.not_mem_nil p)
  | cons q t ih =>
    intro b p k hp hk hlen
    rw [List.foldl_cons]
    rcases List.mem_cons.mp hp with heq | hmem
    · subst heq
      apply foldl_writeDirt_persist
      unfold writeDirt
      rw [hk]
      rw [List.getElem?_set]
      simp [hlen]
    · have hlen2 : (writeDirt b q).length = b.length := writeDirt_length b q
      exact ih (writeDirt b q) p k hmem hk (by omega)

theorem mem_allPositions (x y z : Nat) :
    (x, y, z) ∈ allPositions ↔ x < 16 ∧ y < 256 ∧ z < 16 := by
  unfold allPositions
  dsimp only [SIZE]
  simp only [List.mem_flatMap, List.mem_map, List.mem_range, Prod.mk.injEq]
  constructor
  · rintro ⟨a, ha, b, hb, c, hc, rfl, rfl, rfl⟩
    exact ⟨ha, hb, hc⟩
  · rintro ⟨hx, hy, hz⟩
    exact ⟨x, hx, y, hy, z, hz, rfl, rfl, rfl⟩

theorem index_of_natCast (x y z : Nat) (hx : x < 16) (hy : y < 256) (hz : z < 16) :
    index_of (Int.ofNat x, Int.ofNat y, Int.ofNat z) = some (x + y * 16 + z * (16 * 256)) := by
  simp only [Int.ofNat_eq_coe]
  rw [index_of_of_bounds ((x : Int)) ((y : Int)) ((z : Int)) (by omega)]
  simp only [Int.toNat_natCast]

theorem generate_getElem (coord : Pos2) (k : Nat) (hk : k < volume) :
    (generate coord)[k]? = some BlockId.Dirt := by
  have hk2 : k < 65536 := by
    unfold volume at hk
    dsimp only [SIZE] at hk
    omega
  rw [generate_eq]
  apply foldl_writeDirt_hit allPositions _ (k % 16, k / 16 % 256, k / (16 * 256)) k
  · rw [mem_allPositions]
    omega
  · dsimp only
    rw [index_of_natCast _ _ _ (by omega) (by omega) (by omega)]
    congr 1
    omega
  · rw [List.length_replicate]
    exact hk

theorem get_within (blocks : List BlockId) (pos : Pos3) (hlen : blocks.length = volume)
    (hw : within_bounds pos = true) :
    ∃ i b, index_of pos = some i ∧ blocks[i]? = some b
      ∧ get blocks pos = some (some b) := by
  obtain ⟨a, a2, a3⟩ := pos
  rw [within_bounds_iff] at hw
  have hsome := index_of_of_bounds a a2 a3 hw
  have hlt : a.toNat + a2.toNat * 16 + a3.toNat * (16 * 256) < blocks.length := by
    rw [hlen]
    exact index_of_lt_volume _ _ hsome
  have hbv : blocks[a.toNat + a2.toNat * 16 + a3.toNat * (16 * 256)]? =
      some blocks[a.toNat + a2.toNat * 16 + a3.toNat * (16 * 256)] :=
    List.getElem?_eq_getElem hlt
  refine ⟨_, _, hsome, hbv, ?_⟩
  simp only [get, hsome, hbv]

theorem get_out (blocks : List BlockId) (pos : Pos3)
    (hw : within_bounds pos = false) :
    get blocks pos = some none := by
  obtain ⟨a, a2, a3⟩ := pos
  have hnone : index_of (a, a2, a3) = none := by
    apply index_of_of_not_bounds
    intro hb
    have := (within_bounds_iff a a2 a3).mpr hb
    rw [hw] at this
    exact Bool.noConfusion this
  simp only [get, hnone]

end Chunk

/-! ## C8: `Chunk::get` is total and panic-free -/

/-- C8: for every position, `get` returns `some` of the stored `BlockId`
when the position is within bounds and `none` (modelled as `some none`,
the Rust `None`) when it is out of bounds; it never panics (the outer
`Option` is never `none`) on any chunk whose backing vector has the full
chunk volume, which both `flat()` and `generate()` produce. -/
theorem get_safe (blocks : List BlockId) (coord : Pos2) (pos : Pos3)
    (hlen : blocks.length = Chunk.volume) :
    (Chunk.within_bounds pos = true →
      ∃ i b, Chunk.index_of pos = some i ∧ blocks[i]? = some b
        ∧ Chunk.get blocks pos = some (some b))
    ∧ (Chunk.within_bounds pos = false → Chunk.get blocks pos = some none)
    ∧ Chunk.get blocks pos ≠ none
    ∧ Chunk.flat.length = Chunk.volume
    ∧ (Chunk.generate coord).length = Chunk.volume := by
  refine ⟨Chunk.get_within blocks pos hlen, Chunk.get_out blocks pos, ?_,
    by simp [Chunk.flat], Chunk.generate_length coord⟩
  cases hw : Chunk.within_bounds pos with
  | true =>
    obtain ⟨i, b, _, _, hg⟩ := Chunk.get_within blocks pos hlen hw
    rw [hg]
    simp
  | false =>
    rw [Chunk.get_out blocks pos hw]
    simp

/-- Witness for C8 on the flat chunk at the out-of-bounds position
`(-1, 0, 0)`. -/
theorem get_safe_witness :
    Chunk.flat.length = Chunk.volume
    ∧ Chunk.get Chunk.flat ((-1 : Int), 0, 0) = some none :=
  ⟨by simp [Chunk.flat],
   (get_safe Chunk.flat ((0 : Int), (0 : Int)) ((-1 : Int), 0, 0)
      (by simp [Chunk.flat])).2.1 (by decide)⟩

/-! ## C5: deterministic, total chunk generation -/

/-- C5: chunk generation is deterministic — two invocations of the
generation entry point with the same chunk-grid coordinate produce
identical voxel content (the embedded `generate` is a pure function of its
coordinate) — and every in-bounds position of the generated chunk receives
a `BlockId` assignment. -/
theorem generate_deterministic (c1 c2 : Pos2) (h : c1 = c2) :
    Chunk.generate c1 = Chunk.generate c2
    ∧ ∀ pos : Pos3, Chunk.within_bounds pos = true →
        ∃ b : BlockId, Chunk.get (Chunk.generate c1) pos = some (some b) := by
  subst h
  refine ⟨rfl, ?_⟩
  intro pos hw
  obtain ⟨i, b, _, _, hg⟩ :=
    Chunk.get_within (Chunk.generate c1) pos (Chunk.generate_length c1) hw
  exact ⟨b, hg⟩

/-- Witness for C5 at coordinate `(0, 0)` and position `(0, 0, 0)`. -/
theorem generate_deterministic_witness :
    Chunk.generate ((0 : Int), (0 : Int)) = Chunk.generate ((0 : Int), (0 : Int))
    ∧ ∃ b : BlockId,
        Chunk.get (Chunk.generate ((0 : Int), (0 : Int))) ((0 : Int), 0, 0) =
          some (some b) :=
  ⟨(generate_deterministic ((0 : Int), (0 : Int)) ((0 : Int), (0 : Int)) rfl).1,
   (generate_deterministic ((0 : Int), (0 : Int)) ((0 : Int), (0 : Int)) rfl).2
      ((0 : Int), 0, 0) (by decide)⟩

/-! ## C10: `Chunk::generate` ignores its coordinate -/

/-- C10: the chunk-level `generate` ignores its coordinate argument — any
two coordinates produce identical voxel content — and every in-bounds
position of the result holds the `Dirt` block. -/
theorem generate_ignores_coord (c1 c2 : Pos2) :
    Chunk.generate c1 = Chunk.generate c2
    ∧ ∀ pos : Pos3, Chunk.within_bounds pos = true →
        Chunk.get (Chunk.generate c1) pos = some (some BlockId.Dirt) := by
  refine ⟨rfl, ?_⟩
  intro pos hw
  obtain ⟨i, b, hio, hbv, hg⟩ :=
    Chunk.get_within (Chunk.generate c1) pos (Chunk.generate_length c1) hw
  have hd : (Chunk.generate c1)[i]? = some BlockId.Dirt :=
    Chunk.generate_getElem c1 i (Chunk.index_of_lt_volume pos i hio)
  rw [hbv, Option.some.injEq] at hd
  rw [hd] at hg
  exact hg

/-- Witness for C10: coordinates `(0,0)` and `(5,7)` generate the same
chunk, and position `(3, 2, 1)` of it holds `Dirt`. -/
theorem generate_ignores_coord_witness :
    Chunk.generate ((0 : Int), (0 : Int)) = Chunk.generate ((5 : Int), (7 : Int))
    ∧ Chunk.get (Chunk.generate ((0 : Int), (0 : Int))) ((3 : Int), 2, 1) =
        some (some BlockId.Dirt) :=
  ⟨(generate_ignores_coord ((0 : Int), (0 : Int)) ((5 : Int), (7 : Int))).1,
   (generate_ignores_coord ((0 : Int), (0 : Int)) ((5 : Int), (7 : Int))).2
      ((3 : Int), 2, 1) (by decide)⟩

/-! ## Helper lemmas on the terrain frame step -/

namespace Terrain

theorem mem_frameStepAux (terrain : List Pos2) :
    ∀ (l acc : List Pos2) (P : Pos2),
      (P ∈ l.foldl
        (fun acc pos =>
          if allNeighborsPresent terrain pos = true ∧ pos ∉ acc then pos :: acc else acc)
        acc)
      ↔ P ∈ acc ∨ (P ∈ l ∧ allNeighborsPresent terrain P = true) := by
  intro l
  induction l with
  | nil =>
    intro acc P
    simp
  | cons q t ih =>
    intro acc P
    rw [List.foldl_cons, ih]
    by_cases hq : allNeighborsPresent terrain q = true ∧ q ∉ acc
    · rw [if_pos hq]
      simp only [List.mem_cons]
      constructor
      · rintro ((rfl | hPacc) | ⟨hPt, hnb⟩)
        · exact Or.inr ⟨Or.inl rfl, hq.1⟩
        · exact Or.inl hPacc
        · exact Or.inr ⟨Or.inr hPt, hnb⟩
      · rintro (hPacc | ⟨rfl | hPt, hnb⟩)
        · exact Or.inl (Or.inr hPacc)
        · exact Or.inl (Or.inl rfl)
        · exact Or.inr ⟨hPt, hnb⟩
    · rw [if_neg hq]
      simp only [List.mem_cons]
      constructor
      · rintro (hPacc | ⟨hPt, hnb⟩)
        · exact Or.inl hPacc
        · exact Or.inr ⟨Or.inr hPt, hnb⟩
      · rintro (hPacc | ⟨rfl | hPt, hnb⟩)
        · exact Or.inl hPacc
        · refine Or.inl ?_
          by_contra hqa
          exact hq ⟨hnb, hqa⟩
        · exact Or.inr ⟨hPt, hnb⟩

theorem mem_frameStep (terrain cache : List Pos2) (P : Pos2) :
    P ∈ frameStep terrain cache
      ↔ P ∈ cache ∨ (P ∈ terrain ∧ allNeighborsPresent terrain P = true) :=
  mem_frameStepAux terrain terrain cache P

end Terrain

/-! ## C2: neighbor-gated meshing trigger -/

/-- C2: in any frame, no render-data cache entry is created for a chunk
position `P` one of whose four planar neighbors is absent from the terrain
map (after the frame, the cache contains `P` exactly when it already did);
and in a frame in which all four planar neighbors of `P` are present, `P`
is in the terrain map and `P` has no cached entry yet, the frame meshes `P`
and inserts a cache entry for it. -/
theorem meshing_neighbor_gate (terrain cache : List Pos2) (P : Pos2) :
    (Terrain.allNeighborsPresent terrain P = false →
      (P ∈ Terrain.frameStep terrain cache ↔ P ∈ cache))
    ∧ (Terrain.allNeighborsPresent terrain P = true → P ∈ terrain → P ∉ cache →
      P ∈ Terrain.frameStep terrain cache) := by
  constructor
  · intro hab
    rw [Terrain.mem_frameStep]
    constructor
    · rintro (hc | ⟨_, hnb⟩)
      · exact hc
      · rw [hab] at hnb
        exact Bool.noConfusion hnb
    · exact Or.inl
  · intro hnb hPt _
    rw [Terrain.mem_frameStep]
    exact Or.inr ⟨hPt, hnb⟩

/-- Witness for C2: with terrain `{(0,0)} ∪ its four neighbors` and an
empty cache, the frame caches `(0,0)`; with terrain `{(0,0), (0,1)}` the
neighbor `(1,0)` is absent and the frame leaves `(0,0)` uncached. -/
theorem meshing_neighbor_gate_witness :
    ((0 : Int), (0 : Int)) ∈ Terrain.frameStep
        [((0 : Int), (0 : Int)), (0, 1), (1, 0), (0, -1), (-1, 0)] []
    ∧ (((0 : Int), (0 : Int)) ∈ Terrain.frameStep [((0 : Int), (0 : Int)), (0, 1)] []
        ↔ ((0 : Int), (0 : Int)) ∈ ([] : List Pos2)) :=
  ⟨(meshing_neighbor_gate
      [((0 : Int), (0 : Int)), (0, 1), (1, 0), (0, -1), (-1, 0)] [] ((0 : Int), (0 : Int))).2
        (by decide) (by decide) (by decide),
   (meshing_neighbor_gate [((0 : Int), (0 : Int)), (0, 1)] [] ((0 : Int), (0 : Int))).1
        (by decide)⟩

/-! ## C1: index-buffer growth policy (divergent copies) -/

/-- C1 (code defect): the two renderer copies of `check_index_buffer`
compare in opposite directions.  At the claim's own instance — a shared
index buffer of 3000 indices and a 4000-vertex upload, which must leave at
least `4000/4*6 = 6000` indices — the explora copy grows the buffer to
6000, but the `render` crate copy returns early (because `3000 > 2664`)
and leaves it at 3000, violating the growth policy. -/
theorem index_buffer_growth_divergence :
    Render.checkIndexBufferEx 3000 4000 = some 6000
    ∧ Render.checkIndexBufferRS 3000 4000 = some 3000
    ∧ 4000 / 4 * 6 = 6000
    ∧ ¬ (6000 : Nat) ≤ 3000 := by decide

/-! ## C6: overflow guard defeated by the truncating cast -/

/-- C6 (code defect): a vertex count above `u32::MAX` is supposed to be a
fatal panic, never a silent degradation.  At `len = 2^33` the explora
`check_index_buffer` computes `vertex_length = 2^33/4*6 = 3*2^32`, whose
`as u32` cast wraps to `0`; the guard `7500 < 0` fails, so the function
returns silently — no panic and no growth — although `len > u32::MAX`.
(The `render` crate copy does panic on the same input.) -/
theorem overflow_guard_divergence :
    (4294967295 : Nat) < 8589934592
    ∧ Render.checkIndexBufferEx 7500 8589934592 = some 7500
    ∧ Render.checkIndexBufferRS 7500 8589934592 = none := by decide

/-! ## C7: the shared index buffer never shrinks -/

/-- C7: for both copies of `check_index_buffer`, whenever the call returns
(result `some r`, i.e. it does not panic), the resulting index-buffer
length `r` is at least the length `ibLen` before the call: the shared
index buffer is never shrunk. -/
theorem index_buffer_monotone (ibLen len r : Nat) :
    (Render.checkIndexBufferEx ibLen len = some r → ibLen ≤ r)
    ∧ (Render.checkIndexBufferRS ibLen len = some r → ibLen ≤ r) := by
  constructor
  · intro hc
    simp only [Render.checkIndexBufferEx, Render.u32cast, Render.u32Max,
      Render.computeTerrainIndicesLen] at hc
    split_ifs at hc with h1 h2
    · simp only [Option.some.injEq] at hc
      omega
    · simp only [Option.some.injEq] at hc
      omega
  · intro hc
    simp only [Render.checkIndexBufferRS, Render.u32cast, Render.u32Max,
      Render.computeTerrainIndicesLen] at hc
    split_ifs at hc with h1 h2
    · simp only [Option.some.injEq] at hc
      omega
    · simp only [Option.some.injEq] at hc
      have ha : len / 6 * 4 % 4294967296 ≤ len / 6 * 4 := Nat.mod_le _ _
      have hb : len / 6 * 4 ≤ len / 4 * 6 := by omega
      omega

/-- Witness for C7: a 4000-vertex upload against a 7500-index buffer
leaves the buffer untouched at 7500 ≥ 7500. -/
theorem index_buffer_monotone_witness :
    Render.checkIndexBufferEx 7500 4000 = some 7500 ∧ (7500 : Nat) ≤ 7500 :=
  ⟨by decide, (index_buffer_monotone 7500 4000 7500).1 (by decide)⟩

/-! ## C9: atlas packer tiling -/

/-- C9: for `n ≥ 1` equally-sized input textures of size `w × h`, the
packer's tile count is the ceiling of the square root of `n`
(characterized by `(t-1)² < n ≤ t²`), the output image is
`tile_count*w` by `tile_count*h` pixels, tile `i` is blitted at pixel
offset `((i mod tc)*w, (i div tc)*h)`, i.e. at grid cell
`(i mod tc, i div tc)`; every tile index below `n` falls inside the grid
and distinct tile indices below `n` occupy distinct grid cells. -/
theorem pack_grid_correct (n w h i : Nat) (hn : 1 ≤ n) :
    ((Atlas.tileCount n - 1) * (Atlas.tileCount n - 1) < n
      ∧ n ≤ Atlas.tileCount n * Atlas.tileCount n)
    ∧ Atlas.atlasWidth n w = Atlas.tileCount n * w
    ∧ Atlas.atlasHeight n h = Atlas.tileCount n * h
    ∧ Atlas.tileOffset n w h i =
        ((Atlas.tileCell n i).1 * w, (Atlas.tileCell n i).2 * h)
    ∧ (i < n → (Atlas.tileCell n i).1 < Atlas.tileCount n
        ∧ (Atlas.tileCell n i).2 < Atlas.tileCount n)
    ∧ ∀ j, i < n → j < n → i ≠ j → Atlas.tileCell n i ≠ Atlas.tileCell n j := by
  have htc : Atlas.tileCount n = Nat.sqrt (n - 1) + 1 := by
    unfold Atlas.tileCount
    rw [if_neg (by omega)]
  have hsq1 : Nat.sqrt (n - 1) * Nat.sqrt (n - 1) ≤ n - 1 := Nat.sqrt_le (n - 1)
  have hsq2 : n - 1 < (Nat.sqrt (n - 1) + 1) * (Nat.sqrt (n - 1) + 1) := by
    have := Nat.lt_succ_sqrt (n - 1)
    simpa [Nat.succ_eq_add_one] using this
  have htcpos : 0 < Atlas.tileCount n := by rw [htc]; omega
  have hceil : n ≤ Atlas.tileCount n * Atlas.tileCount n := by rw [htc]; omega
  have hfloor : (Atlas.tileCount n - 1) * (Atlas.tileCount n - 1) < n := by
    rw [htc]
    simp only [Nat.add_sub_cancel]
    omega
  refine ⟨⟨hfloor, hceil⟩, Nat.mul_comm w _, Nat.mul_comm h _, rfl, ?_, ?_⟩
  · intro hi
    refine ⟨Nat.mod_lt i htcpos, ?_⟩
    unfold Atlas.tileCell
    dsimp only
    rw [Nat.div_lt_iff_lt_mul htcpos]
    omega
  · intro j hi hj hne heq
    unfold Atlas.tileCell at heq
    simp only [Prod.mk.injEq] at heq
    obtain ⟨hm, hd⟩ := heq
    have h1 := Nat.div_add_mod i (Atlas.tileCount n)
    have h2 := Nat.div_add_mod j (Atlas.tileCount n)
    exact hne (by rw [← h1, ← h2, hm, hd])

/-- Witness for C9 at the spec's own instance: 5 textures of size 16×16
give a 3×3 grid, a 48-pixel-wide atlas, and tile 4 at cell `(1, 1)`. -/
theorem pack_grid_correct_witness :
    Atlas.tileCount 5 = 3
    ∧ Atlas.atlasWidth 5 16 = Atlas.tileCount 5 * 16
    ∧ Atlas.tileCell 5 4 = (1, 1) := by
  have hs : Nat.sqrt 4 = 2 := by
    have h1 : 2 ≤ Nat.sqrt 4 := Nat.le_sqrt.2 (by norm_num)
    have h2 : Nat.sqrt 4 < 3 := Nat.sqrt_lt.2 (by norm_num)
    omega
  have htc : Atlas.tileCount 5 = 3 := by
    unfold Atlas.tileCount
    rw [if_neg (by norm_num), show (5 : Nat) - 1 = 4 from rfl, hs]
  refine ⟨htc, (pack_grid_correct 5 16 16 4 (by norm_num)).2.1, ?_⟩
  unfold Atlas.tileCell
  rw [htc]

end Voxel
